import Mathlib

set_option maxRecDepth 40000

/-!
Shallow embedding of the Telegram WebApps init-data verifier
(`webapps.go`, package `webapps`).

Modelling conventions:
* Go strings are byte strings; we model them as Lean `String`s in which every
  `Char` stands for one byte (code point = byte value).  All concrete data in
  the development is ASCII, where this model coincides with Go exactly.
* `map[string]string` is modelled as an association list with pairwise
  distinct keys (Go map iteration order is irrelevant to the verifier: every
  consumer either looks keys up or sorts, which we prove).
* `time.Now()` is an explicit parameter `now : Int` (Unix seconds).
* Go's `(value, error)` returns are modelled as `value × Option VErr`.
-/

namespace Webapps

/-! ### Bytes and hex encoding (`encoding/hex`) -/

/-- One char per byte: the byte string underlying a (byte-modelled) Go string. -/
def strBytes (s : String) : List Nat := s.data.map Char.toNat

/-- The lowercase hex alphabet used by `encoding/hex` (`hextable`). -/
def hexChars : List Char := "0123456789abcdef".data

/-- `hextable[n]` for a nibble `n`. -/
def hexChar (n : Nat) : Char := hexChars.getD n '0'

/-- `hex.EncodeToString`: each byte becomes `hextable[b>>4], hextable[b&0x0f]`. -/
def hexEncode (bs : List Nat) : String :=
  String.mk (bs.flatMap (fun b => [hexChar (b >>> 4), hexChar (b &&& 15)]))

/-! ### SHA-256 (`crypto/sha256`, FIPS 180-4) -/

/-- Truncation to a 32-bit word. -/
def w32 (n : Nat) : Nat := n % 4294967296

/-- 32-bit right rotation of a word `x < 2^32`. -/
def rotr32 (n x : Nat) : Nat := w32 ((x >>> n) + ((x % 2 ^ n) <<< (32 - n)))

/-- SHA-256 round constants. -/
def sha256K : List Nat :=
  [1116352408, 1899447441, 3049323471, 3921009573, 961987163, 1508970993,
   2453635748, 2870763221, 3624381080, 310598401, 607225278, 1426881987,
   1925078388, 2162078206, 2614888103, 3248222580, 3835390401, 4022224774,
   264347078, 604807628, 770255983, 1249150122, 1555081692, 1996064986,
   2554220882, 2821834349, 2952996808, 3210313671, 3336571891, 3584528711,
   113926993, 338241895, 666307205, 773529912, 1294757372, 1396182291,
   1695183700, 1986661051, 2177026350, 2456956037, 2730485921, 2820302411,
   3259730800, 3345764771, 3516065817, 3600352804, 4094571909, 275423344,
   430227734, 506948616, 659060556, 883997877, 958139571, 1322822218,
   1537002063, 1747873779, 1955562222, 2024104815, 2227730452, 2361852424,
   2428436474, 2756734187, 3204031479, 3329325298]

/-- The eight 32-bit chaining values of SHA-256. -/
structure Sha256State where
  a : Nat
  b : Nat
  c : Nat
  d : Nat
  e : Nat
  f : Nat
  g : Nat
  hh : Nat

/-- SHA-256 initial hash value. -/
def sha256Init : Sha256State :=
  ⟨1779033703, 3144134277, 1013904242, 2773480762,
   1359893119, 2600822924, 528734635, 1541459225⟩

/-- Small sigma 0 of the message schedule. -/
def lsig0 (x : Nat) : Nat := rotr32 7 x ^^^ rotr32 18 x ^^^ (x >>> 3)

/-- Small sigma 1 of the message schedule. -/
def lsig1 (x : Nat) : Nat := rotr32 17 x ^^^ rotr32 19 x ^^^ (x >>> 10)

/-- Extend the (reversed, most recent first) schedule by `n` more words. -/
def extendRev (rws : List Nat) : Nat → List Nat
  | 0 => rws
  | n + 1 =>
    let nw := w32 (lsig1 (rws.getD 1 0) + rws.getD 6 0 + lsig0 (rws.getD 14 0) + rws.getD 15 0)
    extendRev (nw :: rws) n

/-- The 64-word message schedule of a 16-word block. -/
def sha256Schedule (block : List Nat) : List Nat :=
  (extendRev block.reverse 48).reverse

/-- One SHA-256 round; `kw` is `K[t] + W[t]` truncated to 32 bits. -/
def sha256Round (st : Sha256State) (kw : Nat) : Sha256State :=
  let s1 := rotr32 6 st.e ^^^ rotr32 11 st.e ^^^ rotr32 25 st.e
  let ch := (st.e &&& st.f) ^^^ ((st.e ^^^ 0xffffffff) &&& st.g)
  let temp1 := w32 (st.hh + s1 + ch + kw)
  let s0 := rotr32 2 st.a ^^^ rotr32 13 st.a ^^^ rotr32 22 st.a
  let maj := (st.a &&& st.b) ^^^ (st.a &&& st.c) ^^^ (st.b &&& st.c)
  let temp2 := w32 (s0 + maj)
  ⟨w32 (temp1 + temp2), st.a, st.b, st.c, w32 (st.d + temp1), st.e, st.f, st.g⟩

/-- Compress one 16-word block into the chaining state. -/
def sha256Compress (hs : Sha256State) (block : List Nat) : Sha256State :=
  let kws := List.zipWith (fun k w => w32 (k + w)) sha256K (sha256Schedule block)
  let st := kws.foldl sha256Round hs
  ⟨w32 (hs.a + st.a), w32 (hs.b + st.b), w32 (hs.c + st.c), w32 (hs.d + st.d),
   w32 (hs.e + st.e), w32 (hs.f + st.f), w32 (hs.g + st.g), w32 (hs.hh + st.hh)⟩

/-- Big-endian 8-byte encoding of the 64-bit message bit length. -/
def be64 (n : Nat) : List Nat :=
  [n >>> 56 &&& 255, n >>> 48 &&& 255, n >>> 40 &&& 255, n >>> 32 &&& 255,
   n >>> 24 &&& 255, n >>> 16 &&& 255, n >>> 8 &&& 255, n &&& 255]

/-- SHA-256 padding: `0x80`, zeros to 56 mod 64, then the bit length. -/
def sha256Pad (msg : List Nat) : List Nat :=
  msg ++ 0x80 :: List.replicate ((119 - msg.length % 64) % 64) 0 ++ be64 (8 * msg.length)

/-- Group a byte list into big-endian 32-bit words. -/
def bytesToWords : List Nat → List Nat
  | b0 :: b1 :: b2 :: b3 :: rest =>
    (((b0 * 256 + b1) * 256 + b2) * 256 + b3) :: bytesToWords rest
  | _ => []

/-- Split a word list into 16-word blocks (padded input is a multiple of 16). -/
def splitBlocks : List Nat → List (List Nat)
  | w0 :: w1 :: w2 :: w3 :: w4 :: w5 :: w6 :: w7 ::
    w8 :: w9 :: w10 :: w11 :: w12 :: w13 :: w14 :: w15 :: rest =>
    [w0, w1, w2, w3, w4, w5, w6, w7, w8, w9, w10, w11, w12, w13, w14, w15] ::
      splitBlocks rest
  | _ => []

/-- Big-endian 4-byte serialization of a 32-bit word. -/
def wordBE (w : Nat) : List Nat :=
  [w >>> 24 &&& 255, w >>> 16 &&& 255, w >>> 8 &&& 255, w &&& 255]

/-- SHA-256 of a byte string, as a 32-byte list. -/
def sha256 (msg : List Nat) : List Nat :=
  let st := (splitBlocks (bytesToWords (sha256Pad msg))).foldl sha256Compress sha256Init
  wordBE st.a ++ wordBE st.b ++ wordBE st.c ++ wordBE st.d ++
  wordBE st.e ++ wordBE st.f ++ wordBE st.g ++ wordBE st.hh

/-! ### HMAC (`crypto/hmac`, block size 64 for SHA-256) -/

/-- HMAC-SHA256 of `msg` under `key`. -/
def hmacSha256 (key msg : List Nat) : List Nat :=
  let k := if 64 < key.length then sha256 key else key
  let kp := k ++ List.replicate (64 - k.length) 0
  sha256 ((kp.map (fun b => b ^^^ 0x5c)) ++ sha256 ((kp.map (fun b => b ^^^ 0x36)) ++ msg))

/--
`computeHMAC(dataCheckString, token)` of `webapps.go`: the outer HMAC is keyed
by `HMAC-SHA256(key = "WebAppData", message = token)` (Go: `secret.Sum(nil)`),
and the result is hex-encoded.
-/
def computeHMAC (dataCheckString token : String) : String :=
  hexEncode (hmacSha256 (hmacSha256 (strBytes "WebAppData") (strBytes token))
    (strBytes dataCheckString))

/-- FIPS 180-4 test vector: SHA-256 of the empty string. -/
example : hexEncode (sha256 (strBytes "")) =
    "e3b0c44298fc1c149afbf4c8996fb92427ae41e4649b934ca495991b7852b855" := by decide

/-- FIPS 180-4 test vector: SHA-256 of "abc". -/
example : hexEncode (sha256 (strBytes "abc")) =
    "ba7816bf8f01cfea414140de5dae2223b00361a396177a9cb410ff61f20015ad" := by decide

/-- RFC 4231 test case 2 for HMAC-SHA256. -/
example : hexEncode (hmacSha256 (strBytes "Jefe") (strBytes "what do ya want for nothing?")) =
    "5bdcc146bf60754e6a042426089575c75a003f089d2739839dec58b964ec3843" := by decide

/-! ### Query parsing (`net/url.ParseQuery` / `url.QueryUnescape`) -/

/-- Hex digit check of `net/url` (`ishex`): `0-9`, `a-f`, `A-F`. -/
def ishex (c : Char) : Bool :=
  ('0' ≤ c && c ≤ '9') || ('a' ≤ c && c ≤ 'f') || ('A' ≤ c && c ≤ 'F')

/-- Hex digit value of `net/url` (`unhex`). -/
def unhex (c : Char) : Nat :=
  if '0' ≤ c && c ≤ '9' then c.toNat - '0'.toNat
  else if 'a' ≤ c && c ≤ 'f' then c.toNat - 'a'.toNat + 10
  else if 'A' ≤ c && c ≤ 'F' then c.toNat - 'A'.toNat + 10
  else 0

/--
`url.QueryUnescape` on the char/byte list: `+` becomes space, `%XY` with two
hex digits becomes the byte `0xXY`, a `%` not followed by two hex digits is an
`EscapeError` (`none`).
-/
def unescapeQuery : List Char → Option (List Char)
  | [] => some []
  | '%' :: c1 :: c2 :: rest =>
    if ishex c1 && ishex c2 then
      (unescapeQuery rest).map (Char.ofNat (16 * unhex c1 + unhex c2) :: ·)
    else none
  | '%' :: _ => none
  | '+' :: rest => (unescapeQuery rest).map (' ' :: ·)
  | c :: rest => (unescapeQuery rest).map (c :: ·)

/-- `url.QueryUnescape` on strings. -/
def queryUnescape (s : String) : Option String :=
  (unescapeQuery s.data).map String.mk

/--
Split at every `&`, as `parseQuery`'s repeated `strings.Cut(query, "&")` does.
Empty segments are produced (and later skipped, as in Go).
-/
def splitAmp : List Char → List (List Char)
  | [] => [[]]
  | c :: cs =>
    match splitAmp cs with
    | [] => [[]]
    | s :: ss => if c = '&' then [] :: s :: ss else (c :: s) :: ss

/-- `strings.Cut(seg, "=")`: the part before the first `=` and the part after. -/
def cutEq : List Char → List Char × List Char
  | [] => ([], [])
  | c :: cs =>
    if c = '=' then ([], cs)
    else
      let r := cutEq cs
      (c :: r.1, r.2)

/--
`url.ParseQuery`'s per-segment work, over the segment list: skip empty
segments, reject segments containing `;`, cut at the first `=`, query-unescape
key and value.  Any failing segment makes the whole parse fail (Go returns the
first error, and `parseInitData` aborts on any error).
-/
def parseQueryPairs : List (List Char) → Option (List (String × String))
  | [] => some []
  | seg :: segs =>
    if seg = [] then parseQueryPairs segs
    else if ';' ∈ seg then none
    else
      let kv := cutEq seg
      match unescapeQuery kv.1, unescapeQuery kv.2 with
      | some k, some v =>
        (parseQueryPairs segs).map ((String.mk k, String.mk v) :: ·)
      | _, _ => none

/-- `url.ParseQuery`: the ordered key/value pairs of the query string. -/
def parseQuery (s : String) : Option (List (String × String)) :=
  parseQueryPairs (splitAmp s.data)

/-- Association-list read with Go's map semantics: missing keys give `""`.
`url.Values.Get` likewise returns the first value, or `""` when absent. -/
def getParam (params : List (String × String)) (k : String) : String :=
  match params.find? (fun kv => kv.1 = k) with
  | some kv => kv.2
  | none => ""

/--
First-occurrence deduplication: `parseInitData` builds
`params[key] = values.Get(key)`, i.e. each distinct key is mapped to the value
of its first occurrence in the query.
-/
def dedupKeys : List (String × String) → List (String × String)
  | [] => []
  | kv :: rest =>
    kv :: (dedupKeys rest).filter (fun kv2 => kv2.1 ≠ kv.1)

/-- `parseInitData`: parse the query and extract the claimed `hash` value. -/
def parseInitData (initData : String) : Option (List (String × String) × String) :=
  (parseQuery initData).map (fun prs =>
    let params := dedupKeys prs
    (params, getParam params "hash"))

/-! ### Error values (`errors.New` sentinels and wrapped errors of `webapps.go`) -/

/--
The errors `VerifyWebAppData` can return, at the granularity of Go error
identity: `invalidHash` is the single sentinel `ErrInvalidHash` (used both for
a missing/empty `hash` field and for a signature mismatch);
`urlUnescapeFailed` and `jsonDecodeFailed` are the two wrapped errors of
`decodeUserData`; `invalidDataFormat` and `authDateInvalid` are the wrapped
sentinels `ErrInvalidDataFormat` and `ErrAuthDateInvalid`.
-/
inductive VErr
  | invalidDataFormat
  | invalidHash
  | userFieldMissing
  | authDateMissing
  | authDateInvalid
  | dataExpired
  | urlUnescapeFailed
  | jsonDecodeFailed
deriving DecidableEq, Repr

/-- `validateRequiredFields`: hash, then user, then auth_date. -/
def validateRequiredFields (params : List (String × String)) : Option VErr :=
  if getParam params "hash" = "" then some .invalidHash
  else if getParam params "user" = "" then some .userFieldMissing
  else if getParam params "auth_date" = "" then some .authDateMissing
  else none

/-! ### Timestamp validation (`strconv.ParseInt`, `time.Since`) -/

/-- Decimal digit check. -/
def isDigit (c : Char) : Bool := '0' ≤ c && c ≤ '9'

/-- `strconv.ParseUint(s, 10, _)` without the width cutoff: all-digit strings. -/
def parseUintDec (cs : List Char) : Option Nat :=
  match cs with
  | [] => none
  | _ =>
    if cs.all isDigit then some (cs.foldl (fun a c => a * 10 + (c.toNat - 48)) 0)
    else none

/-- `strconv.ParseInt(s, 10, 64)`: optional sign, decimal digits, int64 range. -/
def parseInt64 (s : String) : Option Int :=
  match s.data with
  | '+' :: rest =>
    (parseUintDec rest).bind (fun n => if n < 2 ^ 63 then some (n : Int) else none)
  | '-' :: rest =>
    (parseUintDec rest).bind (fun n => if n ≤ 2 ^ 63 then some (-(n : Int)) else none)
  | cs =>
    (parseUintDec cs).bind (fun n => if n < 2 ^ 63 then some (n : Int) else none)

/-- `MaxDataAge = 24 * time.Hour`, in seconds. -/
def maxDataAge : Int := 86400

/--
`validateAuthTimestamp`, with `time.Now()` passed explicitly as `now` (Unix
seconds): parse failure is `ErrAuthDateInvalid`; `time.Since(authTime) >
MaxDataAge`, i.e. `now - authTimestamp > 86400`, is `ErrDataExpired`.
-/
def validateAuthTimestamp (now : Int) (authDateStr : String) : Option VErr :=
  match parseInt64 authDateStr with
  | none => some .authDateInvalid
  | some authTimestamp =>
    if maxDataAge < now - authTimestamp then some .dataExpired else none

/-! ### Data-check string (`createDataCheckString`, `sort.Strings`) -/

/-- Byte-wise lexicographic `<` on char lists, as Go compares strings. -/
def ltChars : List Char → List Char → Bool
  | [], [] => false
  | [], _ :: _ => true
  | _ :: _, [] => false
  | a :: as, b :: bs =>
    if a.toNat < b.toNat then true
    else if b.toNat < a.toNat then false
    else ltChars as bs

/-- The `≤` used by `sort.Strings` (total preorder from Go string `<`). -/
def leString (a b : String) : Bool := ! ltChars b.data a.data

/-- Insert into a `leString`-sorted list. -/
def insertSorted (x : String) : List String → List String
  | [] => [x]
  | y :: ys => if leString x y then x :: y :: ys else y :: insertSorted x ys

/-- `sort.Strings`: sort in nondecreasing Go string order (insertion sort; any
sorted permutation yields the same joined output). -/
def sortStrings : List String → List String
  | [] => []
  | x :: xs => insertSorted x (sortStrings xs)

/--
`createDataCheckString(params, authDate)`: one `k=v` line per field other
than `hash` and `auth_date`, plus the line `auth_date=<authDate>`, sorted
(`sort.Strings`) and joined with `"\n"`.
-/
def createDataCheckString (params : List (String × String)) (authDate : String) : String :=
  let pairs := (params.filter (fun kv => !(kv.1 = "hash" || kv.1 = "auth_date"))).map
    (fun kv => kv.1 ++ "=" ++ kv.2)
  String.intercalate "\n" (sortStrings (pairs ++ ["auth_date=" ++ authDate]))

/-! ### Signature validation (`hmac.Equal` = `subtle.ConstantTimeCompare`) -/

/--
`subtle.ConstantTimeCompare`: equal lengths required, then the OR-fold of the
byte-wise XORs must be zero.  Every byte is inspected; there is no
short-circuit on the first differing byte.
-/
def constantTimeCompare (x y : List Nat) : Bool :=
  if x.length ≠ y.length then false
  else ((List.zipWith (fun a b => a ^^^ b) x y).foldl (fun v b => v ||| b) 0) == 0

/-- `validateDataSignature`: recompute the HMAC and compare in constant time. -/
def validateDataSignature (params : List (String × String))
    (receivedHash token : String) : Option VErr :=
  let dataCheckString := createDataCheckString params (getParam params "auth_date")
  let expectedHash := computeHMAC dataCheckString token
  if constantTimeCompare (strBytes expectedHash) (strBytes receivedHash) then none
  else some .invalidHash

/-! ### JSON (`encoding/json.Unmarshal` into `WebAppUser`) -/

/-- JSON values; numbers keep their literal token, strings are decoded. -/
inductive JVal
  | jnull
  | jbool (b : Bool)
  | jnum (lit : List Char)
  | jstr (s : List Char)
  | jarr (elems : List JVal)
  | jobj (fields : List (List Char × JVal))

/-- JSON whitespace. -/
def jsonWs (c : Char) : Bool := c = ' ' || c = Char.ofNat 9 || c = Char.ofNat 10 || c = Char.ofNat 13

/-- Drop leading JSON whitespace. -/
def skipWs : List Char → List Char
  | [] => []
  | c :: cs => if jsonWs c then skipWs cs else c :: cs

/-- Single-character JSON escapes. -/
def escChar (e : Char) : Option Char :=
  if e = '"' then some '"'
  else if e = '\\' then some '\\'
  else if e = '/' then some '/'
  else if e = 'b' then some (Char.ofNat 8)
  else if e = 'f' then some (Char.ofNat 12)
  else if e = 'n' then some (Char.ofNat 10)
  else if e = 'r' then some (Char.ofNat 13)
  else if e = 't' then some (Char.ofNat 9)
  else none

/--
JSON string contents after the opening quote: plain characters (controls
below 0x20 are invalid), the single-character escapes, and `\uXXXX` with
surrogate pairs combined (unpaired surrogates become U+FFFD, as in Go).
-/
def parseJString : Nat → List Char → Option (List Char × List Char)
  | 0, _ => none
  | fuel + 1, cs =>
    match cs with
    | [] => none
    | '"' :: rest => some ([], rest)
    | '\\' :: 'u' :: a :: b :: c :: d :: rest =>
      if ishex a && ishex b && ishex c && ishex d then
        let n := ((unhex a * 16 + unhex b) * 16 + unhex c) * 16 + unhex d
        if 0xd800 ≤ n ∧ n < 0xdc00 then
          match rest with
          | '\\' :: 'u' :: a2 :: b2 :: c2 :: d2 :: rest2 =>
            if ishex a2 && ishex b2 && ishex c2 && ishex d2 then
              let m := ((unhex a2 * 16 + unhex b2) * 16 + unhex c2) * 16 + unhex d2
              if 0xdc00 ≤ m ∧ m < 0xe000 then
                (parseJString fuel rest2).map (fun r =>
                  (Char.ofNat (0x10000 + (n - 0xd800) * 0x400 + (m - 0xdc00)) :: r.1, r.2))
              else (parseJString fuel rest).map (fun r => (Char.ofNat 0xfffd :: r.1, r.2))
            else (parseJString fuel rest).map (fun r => (Char.ofNat 0xfffd :: r.1, r.2))
          | _ => (parseJString fuel rest).map (fun r => (Char.ofNat 0xfffd :: r.1, r.2))
        else if 0xdc00 ≤ n ∧ n < 0xe000 then
          (parseJString fuel rest).map (fun r => (Char.ofNat 0xfffd :: r.1, r.2))
        else (parseJString fuel rest).map (fun r => (Char.ofNat n :: r.1, r.2))
      else none
    | '\\' :: e :: rest =>
      match escChar e with
      | some c => (parseJString fuel rest).map (fun r => (c :: r.1, r.2))
      | none => none
    | c :: rest =>
      if c.toNat < 32 then none
      else (parseJString fuel rest).map (fun r => (c :: r.1, r.2))

/-- Longest leading digit run. -/
def takeDigits : List Char → List Char × List Char
  | [] => ([], [])
  | c :: cs =>
    if isDigit c then
      let r := takeDigits cs
      (c :: r.1, r.2)
    else ([], c :: cs)

/-- JSON integer part: `0` or a nonzero digit followed by digits. -/
def parseIntPart : List Char → Option (List Char × List Char)
  | [] => none
  | c :: cs =>
    if c = '0' then some (['0'], cs)
    else if isDigit c then
      let r := takeDigits cs
      some (c :: r.1, r.2)
    else none

/-- JSON fraction part (optional). -/
def parseFracPart : List Char → Option (List Char × List Char)
  | '.' :: cs =>
    match takeDigits cs with
    | ([], _) => none
    | (ds, rest) => some ('.' :: ds, rest)
  | cs => some ([], cs)

/-- JSON exponent part (optional). -/
def parseExpPart : List Char → Option (List Char × List Char)
  | [] => some ([], [])
  | c :: cs =>
    if c = 'e' || c = 'E' then
      match cs with
      | [] => none
      | s :: cs2 =>
        if s = '+' || s = '-' then
          match takeDigits cs2 with
          | ([], _) => none
          | (ds, rest) => some (c :: s :: ds, rest)
        else
          match takeDigits (s :: cs2) with
          | ([], _) => none
          | (ds, rest) => some (c :: ds, rest)
    else some ([], c :: cs)

/-- A JSON number token, kept as its literal characters. -/
def parseNumber : List Char → Option (List Char × List Char)
  | '-' :: cs =>
    (parseIntPart cs).bind (fun ip =>
      (parseFracPart ip.2).bind (fun fp =>
        (parseExpPart fp.2).map (fun ep => ('-' :: (ip.1 ++ fp.1 ++ ep.1), ep.2))))
  | cs =>
    (parseIntPart cs).bind (fun ip =>
      (parseFracPart ip.2).bind (fun fp =>
        (parseExpPart fp.2).map (fun ep => (ip.1 ++ fp.1 ++ ep.1, ep.2))))

/-- The `\x7b` character. -/
def lbrace : Char := Char.ofNat 123

/-- The `\x7d` character. -/
def rbrace : Char := Char.ofNat 125

mutual

/-- One JSON value (fuel-indexed recursive-descent, as the grammar demands). -/
def parseJVal : Nat → List Char → Option (JVal × List Char)
  | 0, _ => none
  | fuel + 1, cs =>
    match skipWs cs with
    | [] => none
    | 'n' :: 'u' :: 'l' :: 'l' :: rest => some (.jnull, rest)
    | 't' :: 'r' :: 'u' :: 'e' :: rest => some (.jbool true, rest)
    | 'f' :: 'a' :: 'l' :: 's' :: 'e' :: rest => some (.jbool false, rest)
    | '"' :: rest => (parseJString fuel rest).map (fun r => (.jstr r.1, r.2))
    | '[' :: rest =>
      (parseJArrElems fuel (skipWs rest)).map (fun r => (.jarr r.1, r.2))
    | c :: rest =>
      if c = lbrace then
        (parseJObjFields fuel rest).map (fun r => (.jobj r.1, r.2))
      else
        (parseNumber (c :: rest)).map (fun r => (.jnum r.1, r.2))

/-- Object fields directly after the opening brace. -/
def parseJObjFields : Nat → List Char → Option (List (List Char × JVal) × List Char)
  | 0, _ => none
  | fuel + 1, cs =>
    match skipWs cs with
    | [] => none
    | c :: rest =>
      if c = rbrace then some ([], rest)
      else if c = '"' then
        (parseJString fuel rest).bind (fun ks =>
          match skipWs ks.2 with
          | ':' :: rest2 =>
            (parseJVal fuel rest2).bind (fun vv =>
              (parseJObjRest fuel vv.2).map (fun fs => ((ks.1, vv.1) :: fs.1, fs.2)))
          | _ => none)
      else none

/-- Continuation of an object after a parsed field: `,` or closing brace. -/
def parseJObjRest : Nat → List Char → Option (List (List Char × JVal) × List Char)
  | 0, _ => none
  | fuel + 1, cs =>
    match skipWs cs with
    | [] => none
    | ',' :: rest =>
      (match skipWs rest with
       | '"' :: rest2 =>
         (parseJString fuel rest2).bind (fun ks =>
           match skipWs ks.2 with
           | ':' :: rest3 =>
             (parseJVal fuel rest3).bind (fun vv =>
               (parseJObjRest fuel vv.2).map (fun fs => ((ks.1, vv.1) :: fs.1, fs.2)))
           | _ => none)
       | _ => none)
    | c :: rest => if c = rbrace then some ([], rest) else none

/-- Array elements directly after the opening bracket (whitespace skipped). -/
def parseJArrElems : Nat → List Char → Option (List JVal × List Char)
  | 0, _ => none
  | fuel + 1, cs =>
    match cs with
    | ']' :: rest => some ([], rest)
    | _ =>
      (parseJVal fuel cs).bind (fun vv =>
        (parseJArrRest fuel vv.2).map (fun r => (vv.1 :: r.1, r.2)))

/-- Continuation of an array after a parsed element: `,` or `]`. -/
def parseJArrRest : Nat → List Char → Option (List JVal × List Char)
  | 0, _ => none
  | fuel + 1, cs =>
    match skipWs cs with
    | ',' :: rest =>
      (parseJVal fuel rest).bind (fun vv =>
        (parseJArrRest fuel vv.2).map (fun r => (vv.1 :: r.1, r.2)))
    | ']' :: rest => some ([], rest)
    | _ => none

end

/--
One complete JSON document: a single value with only trailing whitespace, as
`encoding/json`'s `checkValid` demands before any decoding happens.
-/
def parseJson (input : List Char) : Option JVal :=
  match parseJVal (2 * input.length + 4) input with
  | some (v, rest) => if skipWs rest = [] then some v else none
  | none => none

/-! ### `WebAppUser` and struct decoding -/

/-- The `WebAppUser` struct; zero values as field defaults. -/
structure WebAppUser where
  ID : Int := 0
  IsBot : Bool := false
  IsPremium : Bool := false
  FirstName : String := ""
  LastName : String := ""
  Username : String := ""
  LanguageCode : String := ""
  AddedToAttachmentMenu : Bool := false
  AllowsWriteToPm : Bool := false
  PhotoURL : String := ""
deriving DecidableEq, Repr

/-- ASCII lower-casing, as `encoding/json`'s field-name folding. -/
def foldCase (c : Char) : Char :=
  if 'A' ≤ c && c ≤ 'Z' then Char.ofNat (c.toNat + 32) else c

/-- `encoding/json` field-name match: ASCII case-insensitive equality. -/
def eqFold (a b : List Char) : Bool :=
  a.map foldCase == b.map foldCase

/--
Decode a JSON value into a Go `int` field: the number literal must parse via
`strconv.ParseInt`; `null` leaves the field unchanged; anything else is an
`UnmarshalTypeError` (recorded, decoding continues).
-/
def decInt (v : JVal) : Option Int × Bool :=
  match v with
  | .jnum lit =>
    match parseInt64 (String.mk lit) with
    | some n => (some n, false)
    | none => (none, true)
  | .jnull => (none, false)
  | _ => (none, true)

/-- Decode a JSON value into a Go `bool` field. -/
def decBool (v : JVal) : Option Bool × Bool :=
  match v with
  | .jbool b => (some b, false)
  | .jnull => (none, false)
  | _ => (none, true)

/-- Decode a JSON value into a Go `string` field. -/
def decStr (v : JVal) : Option String × Bool :=
  match v with
  | .jstr s => (some (String.mk s), false)
  | .jnull => (none, false)
  | _ => (none, true)

/--
Assign one JSON object member to the matching `WebAppUser` field (by json
tag, ASCII case-insensitively); unknown members are ignored.  Returns the
updated struct and whether a type error occurred.
-/
def setField (u : WebAppUser) (key : List Char) (v : JVal) : WebAppUser × Bool :=
  if eqFold key "id".data then
    match decInt v with
    | (some n, e) => ({ u with ID := n }, e)
    | (none, e) => (u, e)
  else if eqFold key "is_bot".data then
    match decBool v with
    | (some b, e) => ({ u with IsBot := b }, e)
    | (none, e) => (u, e)
  else if eqFold key "is_premium".data then
    match decBool v with
    | (some b, e) => ({ u with IsPremium := b }, e)
    | (none, e) => (u, e)
  else if eqFold key "first_name".data then
    match decStr v with
    | (some s, e) => ({ u with FirstName := s }, e)
    | (none, e) => (u, e)
  else if eqFold key "last_name".data then
    match decStr v with
    | (some s, e) => ({ u with LastName := s }, e)
    | (none, e) => (u, e)
  else if eqFold key "username".data then
    match decStr v with
    | (some s, e) => ({ u with Username := s }, e)
    | (none, e) => (u, e)
  else if eqFold key "language_code".data then
    match decStr v with
    | (some s, e) => ({ u with LanguageCode := s }, e)
    | (none, e) => (u, e)
  else if eqFold key "added_to_attachment_menu".data then
    match decBool v with
    | (some b, e) => ({ u with AddedToAttachmentMenu := b }, e)
    | (none, e) => (u, e)
  else if eqFold key "allows_write_to_pm".data then
    match decBool v with
    | (some b, e) => ({ u with AllowsWriteToPm := b }, e)
    | (none, e) => (u, e)
  else if eqFold key "photo_url".data then
    match decStr v with
    | (some s, e) => ({ u with PhotoURL := s }, e)
    | (none, e) => (u, e)
  else (u, false)

/-- Apply the members of a JSON object in order, accumulating the error flag. -/
def applyFields : WebAppUser → Bool → List (List Char × JVal) → WebAppUser × Bool
  | u, e, [] => (u, e)
  | u, e, (k, v) :: rest =>
    let r := setField u k v
    applyFields r.1 (e || r.2) rest

/--
`json.Unmarshal(data, &user)`: syntax is checked on the whole input first
(any syntax error leaves the struct zero); then an object is decoded member
by member, continuing past type errors (partial fill); `null` is a no-op; a
non-object document is a type error with a zero struct.
-/
def jsonUnmarshalUser (input : List Char) : WebAppUser × Bool :=
  match parseJson input with
  | none => ({}, true)
  | some (.jobj fields) => applyFields {} false fields
  | some .jnull => ({}, false)
  | some _ => ({}, true)

/--
`decodeUserData`: a second `url.QueryUnescape` pass over the already
form-decoded `user` value, then JSON decoding.  On unescape failure the zero
struct is returned; on JSON failure Go returns `user, err` — the partially
decoded struct together with the error.
-/
def decodeUserData (encodedData : String) : WebAppUser × Option VErr :=
  match queryUnescape encodedData with
  | none => ({}, some .urlUnescapeFailed)
  | some decodedData =>
    let r := jsonUnmarshalUser decodedData.data
    (r.1, if r.2 then some .jsonDecodeFailed else none)

/-! ### Top-level verification -/

/--
`VerifyWebAppData(telegramInitData, token)` with the clock passed explicitly:
parse, required fields, timestamp, signature, then user decoding.
-/
def VerifyWebAppData (telegramInitData token : String) (now : Int) :
    WebAppUser × Option VErr :=
  match parseInitData telegramInitData with
  | none => ({}, some .invalidDataFormat)
  | some ph =>
    match validateRequiredFields ph.1 with
    | some e => ({}, some e)
    | none =>
      match validateAuthTimestamp now (getParam ph.1 "auth_date") with
      | some e => ({}, some e)
      | none =>
        match validateDataSignature ph.1 ph.2 token with
        | some e => ({}, some e)
        | none => decodeUserData (getParam ph.1 "user")

/-- Sanity (repository test `TestDecodeUserData`, "Valid user data"). -/
example :
    decodeUserData
      "%7B%22id%22%3A123456%2C%22first_name%22%3A%22John%22%2C%22last_name%22%3A%22Doe%22%2C%22username%22%3A%22johndoe%22%2C%22language_code%22%3A%22en%22%7D" =
    ({ ID := 123456, FirstName := "John", LastName := "Doe", Username := "johndoe",
       LanguageCode := "en" }, none) := by decide

/-- Sanity (repository test `TestDecodeUserData`, "Invalid JSON format"). -/
example : decodeUserData "%7Binvalid-json%7D" = ({}, some .jsonDecodeFailed) := by decide

/-- Sanity (repository test `TestCreateDataCheckString`, "Basic params"). -/
example :
    createDataCheckString
      [("query_id", "AAHdF6IQAAAAAN0XohDhrOrc"), ("user", "\x7b\"id\":123456789\x7d"),
       ("hash", "abc123")] "1625097522" =
    "auth_date=1625097522\nquery_id=AAHdF6IQAAAAAN0XohDhrOrc\nuser=\x7b\"id\":123456789\x7d" := by
  decide

/-- Sanity (repository test, "Should skip hash but include auth_date"). -/
example :
    createDataCheckString
      [("hash", "abc123"), ("auth_date", "1625097522"), ("user", "\x7b\"id\":123456789\x7d")]
      "1625097522" =
    "auth_date=1625097522\nuser=\x7b\"id\":123456789\x7d" := by decide

/-! ### Facts about Go string ordering and `sortStrings` -/

lemma charToNat_injective : Function.Injective Char.toNat := by
  intro a b h
  rcases a with ⟨⟨a1, ha⟩, hva⟩
  rcases b with ⟨⟨b1, hb⟩, hvb⟩
  simp [Char.toNat, UInt32.toNat] at h
  subst h
  rfl

lemma ltChars_irrefl : ∀ as, ltChars as as = false := by
  intro as
  induction as with
  | nil => rfl
  | cons a as ih => simp [ltChars, ih]

lemma ltChars_antisymm : ∀ as bs, ltChars as bs = false → ltChars bs as = false → as = bs := by
  intro as
  induction as with
  | nil =>
    intro bs h1 _
    cases bs with
    | nil => rfl
    | cons b bs => simp [ltChars] at h1
  | cons a as ih =>
    intro bs h1 h2
    cases bs with
    | nil => simp [ltChars] at h2
    | cons b bs =>
      simp only [ltChars] at h1 h2
      by_cases hab : a.toNat < b.toNat
      · rw [if_pos hab] at h1; cases h1
      · rw [if_neg hab] at h1
        by_cases hba : b.toNat < a.toNat
        · rw [if_pos hba] at h2; cases h2
        · rw [if_neg hba] at h1
          rw [if_neg hba, if_neg hab] at h2
          have hae : a = b := charToNat_injective (by omega)
          rw [hae, ih bs h1 h2]

lemma ltChars_trans : ∀ as bs cs, ltChars as bs = true → ltChars bs cs = true →
    ltChars as cs = true := by
  intro as
  induction as with
  | nil =>
    intro bs cs h1 h2
    cases bs with
    | nil => cases h1
    | cons b bs =>
      cases cs with
      | nil => simp [ltChars] at h2
      | cons c cs => rfl
  | cons a as ih =>
    intro bs cs h1 h2
    cases bs with
    | nil => cases h1
    | cons b bs =>
      cases cs with
      | nil => simp [ltChars] at h2
      | cons c cs =>
        simp only [ltChars] at h1 h2 ⊢
        by_cases hab : a.toNat < b.toNat
        · by_cases hbc : b.toNat < c.toNat
          · rw [if_pos (by omega : a.toNat < c.toNat)]
          · rw [if_neg hbc] at h2
            by_cases hcb : c.toNat < b.toNat
            · rw [if_pos hcb] at h2; cases h2
            · rw [if_pos (by omega : a.toNat < c.toNat)]
        · rw [if_neg hab] at h1
          by_cases hba : b.toNat < a.toNat
          · rw [if_pos hba] at h1; cases h1
          · rw [if_neg hba] at h1
            by_cases hbc : b.toNat < c.toNat
            · rw [if_pos (by omega : a.toNat < c.toNat)]
            · rw [if_neg hbc] at h2
              by_cases hcb : c.toNat < b.toNat
              · rw [if_pos hcb] at h2; cases h2
              · rw [if_neg hcb] at h2
                rw [if_neg (by omega : ¬ a.toNat < c.toNat),
                  if_neg (by omega : ¬ c.toNat < a.toNat)]
                exact ih bs cs h1 h2

lemma leString_total (a b : String) : leString a b = true ∨ leString b a = true := by
  by_cases h : ltChars b.data a.data = true
  · right
    unfold leString
    by_cases h2 : ltChars a.data b.data = true
    · have := ltChars_trans _ _ _ h h2
      rw [ltChars_irrefl] at this
      cases this
    · simp [h2]
  · left
    simp [leString, h]

lemma leString_antisymm {a b : String} (h1 : leString a b = true)
    (h2 : leString b a = true) : a = b := by
  unfold leString at h1 h2
  apply String.ext
  exact ltChars_antisymm _ _ (by simpa using h2) (by simpa using h1)

lemma leString_trans {a b c : String} (h1 : leString a b = true)
    (h2 : leString b c = true) : leString a c = true := by
  unfold leString at h1 h2 ⊢
  simp only [Bool.not_eq_true'] at h1 h2 ⊢
  by_contra hca
  simp only [Bool.not_eq_false] at hca
  by_cases hbc : ltChars b.data c.data = true
  · rw [ltChars_trans _ _ _ hbc hca] at h1; cases h1
  · have hcb : b.data = c.data :=
      ltChars_antisymm _ _ (by simpa using hbc) h2
    rw [← hcb] at hca
    rw [hca] at h1
    cases h1

lemma insertSorted_perm (x : String) (l : List String) :
    (insertSorted x l).Perm (x :: l) := by
  induction l with
  | nil => simp [insertSorted]
  | cons y ys ih =>
    simp only [insertSorted]
    by_cases h : leString x y = true
    · rw [if_pos h]
    · rw [if_neg h]
      exact (ih.cons y).trans (List.Perm.swap x y ys)

lemma insertSorted_sorted (x : String) (l : List String)
    (h : l.Pairwise (fun a b => leString a b = true)) :
    (insertSorted x l).Pairwise (fun a b => leString a b = true) := by
  induction l with
  | nil => simp [insertSorted]
  | cons y ys ih =>
    simp only [insertSorted]
    rw [List.pairwise_cons] at h
    by_cases hxy : leString x y = true
    · rw [if_pos hxy]
      refine List.Pairwise.cons ?_ (List.pairwise_cons.mpr h)
      intro z hz
      rcases List.mem_cons.mp hz with rfl | hz2
      · exact hxy
      · exact leString_trans hxy (h.1 z hz2)
    · rw [if_neg hxy]
      have hyx : leString y x = true := (leString_total x y).resolve_left hxy
      refine List.Pairwise.cons ?_ (ih h.2)
      intro z hz
      rcases List.mem_cons.mp ((insertSorted_perm x ys).mem_iff.mp hz) with rfl | hz2
      · exact hyx
      · exact h.1 z hz2

lemma sortStrings_perm (l : List String) : (sortStrings l).Perm l := by
  induction l with
  | nil => rfl
  | cons x xs ih =>
    exact (insertSorted_perm x (sortStrings xs)).trans (ih.cons x)

lemma sortStrings_sorted (l : List String) :
    (sortStrings l).Pairwise (fun a b => leString a b = true) := by
  induction l with
  | nil => simp [sortStrings]
  | cons x xs ih => exact insertSorted_sorted x _ ih

lemma sorted_join_unique {l1 l2 : List String} (hp : l1.Perm l2)
    (h1 : l1.Pairwise (fun a b => leString a b = true))
    (h2 : l2.Pairwise (fun a b => leString a b = true)) : l1 = l2 := by
  haveI : IsAntisymm String (fun a b => leString a b = true) :=
    ⟨fun _ _ => leString_antisymm⟩
  exact List.eq_of_perm_of_sorted hp h1 h2

/-!
### C1 / C7: the canonical (data-check) string
-/

/--
The line set described by the spec: one `key=value` line per field excluding
`hash` and `auth_date` (values raw), plus one line `auth_date=<value>` for the
supplied canonical auth_date.
-/
def dataCheckLines (params : List (String × String)) (authDate : String) : List String :=
  (params.filter (fun kv => !(kv.1 = "hash" || kv.1 = "auth_date"))).map
    (fun kv => kv.1 ++ "=" ++ kv.2) ++ ["auth_date=" ++ authDate]

lemma createDataCheckString_sort (params : List (String × String)) (authDate : String) :
    createDataCheckString params authDate =
      String.intercalate "\n" (sortStrings (dataCheckLines params authDate)) := rfl

/--
C1: for every field map, the canonical string is the join, by single newlines
with no trailing newline, of exactly the `key=value` lines of the fields other
than `hash`/`auth_date` plus the `auth_date=<value>` line, arranged in
nondecreasing lexicographic order of full line content: any lexicographically
sorted arrangement of that line multiset joins to the canonical string.
-/
theorem claim1_canonical_string (params : List (String × String)) (authDate : String)
    (ls : List String) (hperm : ls.Perm (dataCheckLines params authDate))
    (hsorted : ls.Pairwise (fun a b => leString a b = true)) :
    createDataCheckString params authDate = String.intercalate "\n" ls := by
  rw [createDataCheckString_sort]
  congr 1
  exact sorted_join_unique ((sortStrings_perm _).trans hperm.symm)
    (sortStrings_sorted _) hsorted

/-- Witness for C1 at a concrete field map. -/
theorem claim1_canonical_string_witness :
    (["auth_date=1", "user=u"].Perm (dataCheckLines [("user", "u"), ("hash", "x")] "1")) ∧
    (["auth_date=1", "user=u"].Pairwise (fun a b => leString a b = true)) ∧
    createDataCheckString [("user", "u"), ("hash", "x")] "1" =
      String.intercalate "\n" ["auth_date=1", "user=u"] :=
  ⟨by decide, by decide, claim1_canonical_string _ _ _ (by decide) (by decide)⟩

/--
C7: permuting the insertion order of the field map never changes the
canonical string: canonicalization is a pure function of the set of key/value
pairs (minus `hash`) and the declared `auth_date`.
-/
theorem claim7_canonicalization_stable (ps1 ps2 : List (String × String)) (authDate : String)
    (hp : ps1.Perm ps2) :
    createDataCheckString ps1 authDate = createDataCheckString ps2 authDate := by
  rw [createDataCheckString_sort, createDataCheckString_sort]
  congr 1
  apply sorted_join_unique _ (sortStrings_sorted _) (sortStrings_sorted _)
  refine (sortStrings_perm _).trans (.trans ?_ (sortStrings_perm _).symm)
  exact ((hp.filter _).map _).append_right _

/-- Witness for C7 at a concrete permutation. -/
theorem claim7_canonicalization_stable_witness :
    ([("b", "2"), ("a", "1")].Perm [("a", "1"), ("b", "2")]) ∧
    createDataCheckString [("b", "2"), ("a", "1")] "3" =
      createDataCheckString [("a", "1"), ("b", "2")] "3" :=
  ⟨by decide, claim7_canonicalization_stable _ _ _ (by decide)⟩

/-!
### C2: the signer
-/

lemma sha256_length (m : List Nat) : (sha256 m).length = 32 := by
  simp [sha256, wordBE]

lemma hmacSha256_length (k m : List Nat) : (hmacSha256 k m).length = 32 :=
  sha256_length _

lemma hexEncode_length (bs : List Nat) : (hexEncode bs).length = 2 * bs.length := by
  show (bs.flatMap _).length = 2 * bs.length
  induction bs with
  | nil => rfl
  | cons b bs ih =>
    simp only [List.flatMap_cons, List.length_append, List.length_cons, ih]
    simp; omega

lemma computeHMAC_length (s t : String) : (computeHMAC s t).length = 64 := by
  unfold computeHMAC
  rw [hexEncode_length, hmacSha256_length]

lemma hexChar_mem (n : Nat) : hexChar n ∈ hexChars := by
  unfold hexChar
  rcases Nat.lt_or_ge n 16 with h | h
  · interval_cases n <;> decide
  · rw [List.getD_eq_default]
    · decide
    · simpa [hexChars] using h

lemma computeHMAC_chars (s t : String) : ∀ c ∈ (computeHMAC s t).data, c ∈ hexChars := by
  intro c hc
  have h2 : c ∈ (hmacSha256 (hmacSha256 (strBytes "WebAppData") (strBytes t))
      (strBytes s)).flatMap (fun b => [hexChar (b >>> 4), hexChar (b &&& 15)]) := hc
  rw [List.mem_flatMap] at h2
  obtain ⟨b, _, hb⟩ := h2
  simp only [List.mem_cons, List.not_mem_nil, or_false] at hb
  rcases hb with rfl | rfl
  · exact hexChar_mem _
  · exact hexChar_mem _

/--
C2: the signer output is the lowercase hex encoding of HMAC-SHA256 keyed by
HMAC-SHA256("WebAppData", token) over the canonical string; it is always 64
characters long, drawn from the lowercase hex alphabet, and recomputation on
the same inputs yields the identical string.
-/
theorem claim2_signer (s t : String) :
    computeHMAC s t =
      hexEncode (hmacSha256 (hmacSha256 (strBytes "WebAppData") (strBytes t)) (strBytes s)) ∧
    (computeHMAC s t).length = 64 ∧
    (∀ c ∈ (computeHMAC s t).data, c ∈ hexChars) ∧
    computeHMAC s t = computeHMAC s t :=
  ⟨rfl, computeHMAC_length s t, computeHMAC_chars s t, rfl⟩

/-- Witness for C2: its per-character clause applied at a concrete character. -/
theorem claim2_signer_witness : '6' ∈ hexChars :=
  (claim2_signer "" "").2.2.1 '6' (by decide)

/-!
### C3: required-field check (corrected)
-/

/--
C3 as stated is false: the missing-hash error is not distinct from the
signature-mismatch error.  Both the required-field check on a map without
`hash` and the signature check on a mismatch return the same sentinel
`ErrInvalidHash`.
-/
theorem claim3_counterexample :
    validateRequiredFields [("user", "u"), ("auth_date", "1")] = some VErr.invalidHash ∧
    validateDataSignature [("user", "u"), ("auth_date", "1")] "deadbeef" "t" =
      some VErr.invalidHash := by
  exact ⟨by decide, by decide⟩

/--
C3 amended: the required-field check fails on missing/empty `hash` first
(with `ErrInvalidHash`, the same sentinel the signature mismatch uses, not a
distinct `MissingHash`), then on missing/empty `user` with
`ErrUserFieldMissing`, then on missing/empty `auth_date` with
`ErrAuthDateMissing`; a payload missing both `hash` and `user` therefore
reports `ErrInvalidHash`, not the user error.
-/
theorem claim3_required_fields (params : List (String × String)) :
    (validateRequiredFields params = some VErr.invalidHash ↔ getParam params "hash" = "") ∧
    (validateRequiredFields params = some VErr.userFieldMissing ↔
      (¬ getParam params "hash" = "" ∧ getParam params "user" = "")) ∧
    (validateRequiredFields params = some VErr.authDateMissing ↔
      (¬ getParam params "hash" = "" ∧ ¬ getParam params "user" = "" ∧
        getParam params "auth_date" = "")) ∧
    (validateRequiredFields params = none ↔
      (¬ getParam params "hash" = "" ∧ ¬ getParam params "user" = "" ∧
        ¬ getParam params "auth_date" = "")) := by
  unfold validateRequiredFields
  by_cases h1 : getParam params "hash" = "" <;>
    by_cases h2 : getParam params "user" = "" <;>
      by_cases h3 : getParam params "auth_date" = "" <;>
        simp [h1, h2, h3]

/-- Witness for C3's amended theorem at concrete field maps. -/
theorem claim3_required_fields_witness :
    validateRequiredFields [("user", "u"), ("auth_date", "1")] = some VErr.invalidHash ∧
    validateRequiredFields [("hash", "h"), ("auth_date", "1")] = some VErr.userFieldMissing ∧
    validateRequiredFields [("hash", "h"), ("user", "u")] = some VErr.authDateMissing ∧
    validateRequiredFields [("hash", "h"), ("user", "u"), ("auth_date", "1")] = none :=
  ⟨(claim3_required_fields _).1.mpr (by decide),
   (claim3_required_fields _).2.1.mpr ⟨by decide, by decide⟩,
   (claim3_required_fields _).2.2.1.mpr ⟨by decide, by decide, by decide⟩,
   (claim3_required_fields _).2.2.2.mpr ⟨by decide, by decide, by decide⟩⟩

/-!
### C4: timestamp check
-/

/--
C4: the timestamp check fails with `ErrAuthDateInvalid` exactly when
`auth_date` does not parse as a base-10 signed 64-bit integer; otherwise it
fails with `ErrDataExpired` exactly when `now - auth_date` exceeds 24 hours;
`auth_date = now - MaxAge - 1` is rejected, `auth_date = now - MaxAge + 1` is
accepted, and any future timestamp is accepted.
-/
theorem claim4_timestamp (now : Int) (s : String) :
    (parseInt64 s = none → validateAuthTimestamp now s = some VErr.authDateInvalid) ∧
    (∀ t : Int, parseInt64 s = some t →
      (validateAuthTimestamp now s = some VErr.dataExpired ↔ maxDataAge < now - t) ∧
      (validateAuthTimestamp now s = none ↔ now - t ≤ maxDataAge) ∧
      (t = now - (maxDataAge + 1) → validateAuthTimestamp now s = some VErr.dataExpired) ∧
      (t = now - (maxDataAge - 1) → validateAuthTimestamp now s = none) ∧
      (now ≤ t → validateAuthTimestamp now s = none)) := by
  constructor
  · intro h
    unfold validateAuthTimestamp
    rw [h]
  · intro t ht
    unfold validateAuthTimestamp
    rw [ht]
    dsimp only
    by_cases h : maxDataAge < now - t
    · rw [if_pos h]
      refine ⟨by simp [h], ?_, fun _ => rfl, ?_, ?_⟩
      · constructor
        · intro hc; cases hc
        · intro hle; exact absurd h (by omega)
      · intro he
        exact absurd h (by rw [he]; unfold maxDataAge; omega)
      · intro hf
        exact absurd h (by unfold maxDataAge at *; omega)
    · rw [if_neg h]
      refine ⟨?_, by simp; omega, ?_, fun _ => rfl, fun _ => rfl⟩
      · constructor
        · intro hc; cases hc
        · intro hgt; exact absurd hgt h
      · intro he
        exact absurd he (by unfold maxDataAge at *; omega)

/-- Witness for C4 at concrete clocks and strings. -/
theorem claim4_timestamp_witness :
    validateAuthTimestamp 0 "abc" = some VErr.authDateInvalid ∧
    validateAuthTimestamp 86401 "0" = some VErr.dataExpired ∧
    validateAuthTimestamp 86399 "0" = none ∧
    validateAuthTimestamp 0 "5" = none :=
  ⟨(claim4_timestamp 0 "abc").1 (by decide),
   (((claim4_timestamp 86401 "0").2 0 (by decide)).2.2.1 (by decide)),
   (((claim4_timestamp 86399 "0").2 0 (by decide)).2.2.2.1 (by decide)),
   (((claim4_timestamp 0 "5").2 5 (by decide)).2.2.2.2 (by decide))⟩

/-!
### C8: constant-time signature comparison
-/

lemma lor_eq_zero {a b : Nat} : a ||| b = 0 ↔ a = 0 ∧ b = 0 := by
  constructor
  · intro h
    constructor
    · apply Nat.zero_of_testBit_eq_false
      intro i
      have h2 := congrArg (fun n => Nat.testBit n i) h
      simp [Nat.testBit_lor] at h2
      exact h2.1
    · apply Nat.zero_of_testBit_eq_false
      intro i
      have h2 := congrArg (fun n => Nat.testBit n i) h
      simp [Nat.testBit_lor] at h2
      exact h2.2
  · rintro ⟨rfl, rfl⟩; rfl

lemma foldl_lor_eq_zero (l : List Nat) (a : Nat) :
    l.foldl (fun v b => v ||| b) a = 0 ↔ a = 0 ∧ ∀ b ∈ l, b = 0 := by
  induction l generalizing a with
  | nil => simp
  | cons x xs ih =>
    simp only [List.foldl_cons, ih, lor_eq_zero, List.mem_cons]
    constructor
    · rintro ⟨⟨ha, hx⟩, hall⟩
      exact ⟨ha, fun b hb => hb.elim (fun hbx => hbx ▸ hx) (hall b)⟩
    · rintro ⟨ha, hall⟩
      exact ⟨⟨ha, hall x (Or.inl rfl)⟩, fun b hb => hall b (Or.inr hb)⟩

lemma zipWith_xor_all_zero : ∀ x y : List Nat, x.length = y.length →
    ((∀ b ∈ List.zipWith (fun a b => a ^^^ b) x y, b = 0) ↔ x = y) := by
  intro x
  induction x with
  | nil =>
    intro y hl
    cases y with
    | nil => simp
    | cons b bs => cases hl
  | cons a as ih =>
    intro y hl
    cases y with
    | nil => cases hl
    | cons b bs =>
      simp only [List.zipWith_cons_cons, List.mem_cons, List.cons.injEq]
      constructor
      · intro h
        have hab : a = b := Nat.xor_eq_zero.mp (h _ (Or.inl rfl))
        have htail := (ih bs (by simpa using hl)).mp (fun c hc => h c (Or.inr hc))
        exact ⟨hab, htail⟩
      · rintro ⟨rfl, rfl⟩
        intro c hc
        rcases hc with rfl | hc
        · exact Nat.xor_eq_zero.mpr rfl
        · exact ((ih as rfl).mpr rfl) c hc

lemma constantTimeCompare_iff (x y : List Nat) :
    constantTimeCompare x y = true ↔ x = y := by
  unfold constantTimeCompare
  by_cases hl : x.length ≠ y.length
  · rw [if_pos hl]
    simp only [Bool.false_eq_true, false_iff]
    intro h
    exact hl (h ▸ rfl)
  · rw [if_neg hl]
    push_neg at hl
    rw [beq_iff_eq, foldl_lor_eq_zero]
    simp only [true_and]
    exact zipWith_xor_all_zero x y hl

lemma strBytes_injective : Function.Injective strBytes := by
  intro a b h
  apply String.ext
  exact List.map_injective_iff.mpr charToNat_injective h

/--
C8: the signature check compares the recomputed signature to the claimed
`hash` with `hmac.Equal` (`subtle.ConstantTimeCompare`: a length check plus an
OR-fold over all byte-wise XORs, inspecting every byte with no short-circuit),
that comparison decides exactly byte-string equality, and the check fails with
`ErrInvalidHash` exactly when the two strings differ.
-/
theorem claim8_constant_time_compare (params : List (String × String))
    (receivedHash token : String) :
    (validateDataSignature params receivedHash token =
      if constantTimeCompare
          (strBytes (computeHMAC (createDataCheckString params (getParam params "auth_date"))
            token))
          (strBytes receivedHash)
        then none else some VErr.invalidHash) ∧
    (∀ x y : List Nat, constantTimeCompare x y = true ↔ x = y) ∧
    (validateDataSignature params receivedHash token = some VErr.invalidHash ↔
      ¬ receivedHash =
        computeHMAC (createDataCheckString params (getParam params "auth_date")) token) ∧
    (validateDataSignature params receivedHash token = none ↔
      receivedHash =
        computeHMAC (createDataCheckString params (getParam params "auth_date")) token) := by
  refine ⟨rfl, constantTimeCompare_iff, ?_, ?_⟩
  · unfold validateDataSignature
    by_cases h : constantTimeCompare
        (strBytes (computeHMAC (createDataCheckString params (getParam params "auth_date"))
          token))
        (strBytes receivedHash) = true
    · rw [if_pos h]
      have hEq := strBytes_injective ((constantTimeCompare_iff _ _).mp h)
      exact ⟨fun hc => Option.noConfusion hc, fun hn => (hn hEq.symm).elim⟩
    · rw [if_neg h]
      refine ⟨fun _ he => ?_, fun _ => rfl⟩
      exact h ((constantTimeCompare_iff _ _).mpr (by rw [he]))
  · unfold validateDataSignature
    by_cases h : constantTimeCompare
        (strBytes (computeHMAC (createDataCheckString params (getParam params "auth_date"))
          token))
        (strBytes receivedHash) = true
    · rw [if_pos h]
      have hEq := strBytes_injective ((constantTimeCompare_iff _ _).mp h)
      exact ⟨fun _ => hEq.symm, fun _ => rfl⟩
    · rw [if_neg h]
      refine ⟨fun hc => Option.noConfusion hc, fun he => ?_⟩
      exact absurd ((constantTimeCompare_iff _ _).mpr (by rw [he])) h

/-- Witness for C8: its match clause applied at a matching concrete input. -/
theorem claim8_constant_time_compare_witness :
    validateDataSignature [("auth_date", "1")]
      (computeHMAC (createDataCheckString [("auth_date", "1")] "1") "t") "t" = none :=
  (claim8_constant_time_compare [("auth_date", "1")]
    (computeHMAC (createDataCheckString [("auth_date", "1")] "1") "t") "t").2.2.2.mpr
    (by rfl)

/-!
### C5: no partial profile on failure (corrected)
-/

/--
C5 as stated is false: with a valid signature over
`user = {"id":5,"first_name":1}`, JSON decoding fails on the `first_name`
type mismatch after having set `ID = 5`, and `VerifyWebAppData` returns the
partially-populated profile together with the error.
-/
theorem claim5_counterexample :
    VerifyWebAppData
      "auth_date=1625097522&user=%7B%22id%22%3A5%2C%22first_name%22%3A1%7D&hash=20baa94e648eee2d52c8fa5045f64d5c6a50e8b2893513ba0e6ab55ac8d3aeae"
      "test_token" 1625097522 =
      ({ ID := 5 }, some VErr.jsonDecodeFailed) ∧
    ({ ID := 5 } : WebAppUser) ≠ ({} : WebAppUser) := by
  exact ⟨by decide, by decide⟩

/--
C5 amended: whenever `VerifyWebAppData` returns an error other than the JSON
decode error, the returned profile is the zero value; only a JSON decode
failure can return a partially-populated profile alongside the error.
-/
theorem claim5_zero_profile_on_failure (data token : String) (now : Int)
    (u : WebAppUser) (e : VErr)
    (hres : VerifyWebAppData data token now = (u, some e))
    (hne : e ≠ VErr.jsonDecodeFailed) : u = {} := by
  unfold VerifyWebAppData at hres
  split at hres
  · exact (Prod.mk.injEq _ _ _ _ ▸ hres).1.symm
  · split at hres
    · exact (Prod.mk.injEq _ _ _ _ ▸ hres).1.symm
    · split at hres
      · exact (Prod.mk.injEq _ _ _ _ ▸ hres).1.symm
      · split at hres
        · exact (Prod.mk.injEq _ _ _ _ ▸ hres).1.symm
        · unfold decodeUserData at hres
          split at hres
          · exact (Prod.mk.injEq _ _ _ _ ▸ hres).1.symm
          · dsimp only at hres
            split at hres
            · have he := (Prod.mk.injEq _ _ _ _ ▸ hres).2
              exact absurd (Option.some.injEq _ _ ▸ he).symm hne
            · have he := (Prod.mk.injEq _ _ _ _ ▸ hres).2
              cases he

/-- Witness for C5's amended theorem at a concrete failing payload. -/
theorem claim5_zero_profile_on_failure_witness :
    (VerifyWebAppData "hash=a&auth_date=1" "t" 0).1 = {} :=
  claim5_zero_profile_on_failure "hash=a&auth_date=1" "t" 0
    (VerifyWebAppData "hash=a&auth_date=1" "t" 0).1 VErr.userFieldMissing
    (by decide) (by decide)

/-!
### C6: end-to-end scenario
-/

lemma verify_steps (data token : String) (now : Int)
    (params : List (String × String)) (hv : String)
    (h1 : parseInitData data = some (params, hv))
    (h2 : validateRequiredFields params = none)
    (h3 : validateAuthTimestamp now (getParam params "auth_date") = none)
    (h4 : validateDataSignature params hv token = none) :
    VerifyWebAppData data token now = decodeUserData (getParam params "user") := by
  unfold VerifyWebAppData
  rw [h1]
  dsimp only
  rw [h2, h3, h4]

/--
C6: with token "test_token", the given user JSON and auth_date 1625097522,
the payload parses to the expected field map, the canonical string is
`auth_date=1625097522` + newline + the user JSON, and (at any clock at which
the data is not yet expired) verification succeeds and returns a profile with
`ID = 12345` and `FirstName = "Test"`; the payload's `hash` is exactly
`computeHMAC` of that canonical string under "test_token".
-/
theorem claim6_end_to_end (now : Int) (hfresh : now - 1625097522 ≤ maxDataAge) :
    computeHMAC "auth_date=1625097522\nuser=\x7b\"id\":12345,\"first_name\":\"Test\"\x7d"
        "test_token" =
      "1cb994d2f04b9e705ca19668938a5a7c0b18d2ae990486750df14bf01ece9e61" ∧
    parseInitData
        "auth_date=1625097522&user=%7B%22id%22%3A12345%2C%22first_name%22%3A%22Test%22%7D&hash=1cb994d2f04b9e705ca19668938a5a7c0b18d2ae990486750df14bf01ece9e61" =
      some ([("auth_date", "1625097522"),
             ("user", "\x7b\"id\":12345,\"first_name\":\"Test\"\x7d"),
             ("hash", "1cb994d2f04b9e705ca19668938a5a7c0b18d2ae990486750df14bf01ece9e61")],
            "1cb994d2f04b9e705ca19668938a5a7c0b18d2ae990486750df14bf01ece9e61") ∧
    createDataCheckString
        [("auth_date", "1625097522"),
         ("user", "\x7b\"id\":12345,\"first_name\":\"Test\"\x7d"),
         ("hash", "1cb994d2f04b9e705ca19668938a5a7c0b18d2ae990486750df14bf01ece9e61")]
        "1625097522" =
      "auth_date=1625097522\nuser=\x7b\"id\":12345,\"first_name\":\"Test\"\x7d" ∧
    VerifyWebAppData
        "auth_date=1625097522&user=%7B%22id%22%3A12345%2C%22first_name%22%3A%22Test%22%7D&hash=1cb994d2f04b9e705ca19668938a5a7c0b18d2ae990486750df14bf01ece9e61"
        "test_token" now =
      ({ ID := 12345, FirstName := "Test" }, none) := by
  refine ⟨by decide, by decide, by decide, ?_⟩
  rw [verify_steps _ _ now
      [("auth_date", "1625097522"),
       ("user", "\x7b\"id\":12345,\"first_name\":\"Test\"\x7d"),
       ("hash", "1cb994d2f04b9e705ca19668938a5a7c0b18d2ae990486750df14bf01ece9e61")]
      "1cb994d2f04b9e705ca19668938a5a7c0b18d2ae990486750df14bf01ece9e61"
      (by decide) (by decide) ?_ (by decide)]
  · decide
  · have hp : parseInt64 (getParam
        [("auth_date", "1625097522"),
         ("user", "\x7b\"id\":12345,\"first_name\":\"Test\"\x7d"),
         ("hash", "1cb994d2f04b9e705ca19668938a5a7c0b18d2ae990486750df14bf01ece9e61")]
        "auth_date") = some 1625097522 := by decide
    unfold validateAuthTimestamp
    rw [hp]
    dsimp only
    rw [if_neg (by unfold maxDataAge at hfresh ⊢; omega)]

/-- Witness for C6 at the clock `now = 1625097522`. -/
theorem claim6_end_to_end_witness :
    VerifyWebAppData
        "auth_date=1625097522&user=%7B%22id%22%3A12345%2C%22first_name%22%3A%22Test%22%7D&hash=1cb994d2f04b9e705ca19668938a5a7c0b18d2ae990486750df14bf01ece9e61"
        "test_token" 1625097522 =
      ({ ID := 12345, FirstName := "Test" }, none) :=
  (claim6_end_to_end 1625097522 (by decide)).2.2.2

/-!
### C9: duplicate keys use the first occurrence
-/

lemma splitAmp_ne_nil (l : List Char) : splitAmp l ≠ [] := by
  cases l with
  | nil => simp [splitAmp]
  | cons c cs =>
    simp only [splitAmp]
    cases h : splitAmp cs with
    | nil => simp
    | cons s ss => by_cases hc : c = '&' <;> simp [hc]

lemma splitAmp_append (a b : List Char) :
    splitAmp (a ++ '&' :: b) = splitAmp a ++ splitAmp b := by
  induction a with
  | nil =>
    simp only [List.nil_append]
    cases h : splitAmp b with
    | nil => exact absurd h (splitAmp_ne_nil b)
    | cons s ss => simp [splitAmp, h]
  | cons c cs ih =>
    simp only [List.cons_append, splitAmp, List.append_eq]
    rw [ih]
    cases h : splitAmp cs with
    | nil => exact absurd h (splitAmp_ne_nil cs)
    | cons s ss => by_cases hc : c = '&' <;> simp [hc]

lemma splitAmp_no_amp (l : List Char) (h : '&' ∉ l) : splitAmp l = [l] := by
  induction l with
  | nil => rfl
  | cons c cs ih =>
    have hc : c ≠ '&' := fun hcc => h (hcc ▸ List.mem_cons_self c cs)
    have hcs : '&' ∉ cs := fun hm => h (List.mem_cons_of_mem c hm)
    simp [splitAmp, ih hcs, hc]

lemma cutEq_no_eq (a b : List Char) (h : '=' ∉ a) : cutEq (a ++ '=' :: b) = (a, b) := by
  induction a with
  | nil => simp [cutEq]
  | cons c cs ih =>
    have hc : c ≠ '=' := fun hcc => h (hcc ▸ List.mem_cons_self c cs)
    have hcs : '=' ∉ cs := fun hm => h (List.mem_cons_of_mem c hm)
    simp [cutEq, ih hcs, hc]

lemma parseQueryPairs_cons_skip (segs : List (List Char)) :
    parseQueryPairs ([] :: segs) = parseQueryPairs segs := by
  simp [parseQueryPairs]

lemma parseQueryPairs_cons_err (seg : List Char) (segs : List (List Char))
    (hsemi : ';' ∈ seg) :
    parseQueryPairs (seg :: segs) = none := by
  have hseg : seg ≠ [] := by
    intro h
    subst h
    cases hsemi
  simp [parseQueryPairs, hseg, hsemi]

lemma parseQueryPairs_cons (seg : List Char) (segs : List (List Char)) (hseg : seg ≠ [])
    (hsemi : ';' ∉ seg) :
    parseQueryPairs (seg :: segs) =
      match unescapeQuery (cutEq seg).1, unescapeQuery (cutEq seg).2 with
      | some k, some v => (parseQueryPairs segs).map ((String.mk k, String.mk v) :: ·)
      | _, _ => none := by
  simp [parseQueryPairs, hseg, hsemi]

lemma parseQueryPairs_append (s1 s2 : List (List Char)) :
    parseQueryPairs (s1 ++ s2) =
      match parseQueryPairs s1, parseQueryPairs s2 with
      | some p1, some p2 => some (p1 ++ p2)
      | _, _ => none := by
  induction s1 with
  | nil =>
    simp only [List.nil_append, parseQueryPairs]
    cases parseQueryPairs s2 <;> rfl
  | cons seg segs ih =>
    rw [List.cons_append]
    by_cases hseg : seg = []
    · subst hseg
      rw [parseQueryPairs_cons_skip, parseQueryPairs_cons_skip, ih]
    · by_cases hsemi : ';' ∈ seg
      · have h1 := parseQueryPairs_cons_err seg (segs ++ s2) hsemi
        have h2 := parseQueryPairs_cons_err seg segs hsemi
        rw [h1, h2]
      · rw [parseQueryPairs_cons seg (segs ++ s2) hseg hsemi,
          parseQueryPairs_cons seg segs hseg hsemi]
        cases hk : unescapeQuery (cutEq seg).1 with
        | none => rfl
        | some k =>
          cases hv : unescapeQuery (cutEq seg).2 with
          | none => rfl
          | some v =>
            rw [ih]
            cases parseQueryPairs segs <;> cases parseQueryPairs s2 <;> rfl

lemma parseQueryPairs_single (kenc venc k v : List Char)
    (hksemi : ';' ∉ kenc) (hvsemi : ';' ∉ venc) (hkeq : '=' ∉ kenc)
    (hkune : unescapeQuery kenc = some k) (hvune : unescapeQuery venc = some v) :
    parseQueryPairs [kenc ++ '=' :: venc] = some [(String.mk k, String.mk v)] := by
  have hne : kenc ++ '=' :: venc ≠ [] := by
    cases kenc <;> simp
  have hnosemi : ';' ∉ kenc ++ '=' :: venc := by
    simp only [List.mem_append, List.mem_cons]
    rintro (h | h | h)
    · exact hksemi h
    · cases h
    · exact hvsemi h
  rw [show [kenc ++ '=' :: venc] = (kenc ++ '=' :: venc) :: ([] : List (List Char)) from rfl,
    parseQueryPairs_cons _ _ hne hnosemi, cutEq_no_eq kenc venc hkeq]
  rw [hkune, hvune]
  rfl

lemma dedupKeys_append_mem (xs : List (String × String)) (k v : String) :
    dedupKeys (xs ++ [(k, v)]) =
      if k ∈ xs.map Prod.fst then dedupKeys xs else dedupKeys xs ++ [(k, v)] := by
  induction xs with
  | nil => simp [dedupKeys]
  | cons kv2 rest ih =>
    simp only [List.cons_append, dedupKeys, List.append_eq, ih]
    by_cases hmem : k ∈ rest.map Prod.fst
    · have hmem2 : k ∈ (kv2 :: rest).map Prod.fst := by simp [hmem]
      rw [if_pos hmem, if_pos hmem2]
    · by_cases hk : k = kv2.1
      · have hmem2 : k ∈ (kv2 :: rest).map Prod.fst := by simp [hk]
        rw [if_neg hmem, if_pos hmem2, List.filter_append]
        simp [hk]
      · have hmem2 : ¬ k ∈ (kv2 :: rest).map Prod.fst := by simp [hk, hmem]
        rw [if_neg hmem, if_neg hmem2, List.filter_append]
        simp [hk]

lemma find?_filter_keyne (l : List (String × String)) (q k : String) (hne : ¬ k = q) :
    (l.filter (fun p => p.1 ≠ q)).find? (fun p => p.1 = k) =
      l.find? (fun p => p.1 = k) := by
  induction l with
  | nil => rfl
  | cons p rest ih =>
    by_cases hp : p.1 = q
    · have hpk : ¬ p.1 = k := fun h2 => hne (h2 ▸ hp)
      rw [List.filter_cons_of_neg (by simp [hp]), ih,
        List.find?_cons_of_neg _ (by simp [hpk])]
    · rw [List.filter_cons_of_pos (by simp [hp])]
      by_cases hpk : p.1 = k
      · rw [List.find?_cons_of_pos _ (by simp [hpk]),
          List.find?_cons_of_pos _ (by simp [hpk])]
      · rw [List.find?_cons_of_neg _ (by simp [hpk]),
          List.find?_cons_of_neg _ (by simp [hpk]), ih]

lemma find?_dedupKeys (prs : List (String × String)) (k : String) :
    (dedupKeys prs).find? (fun kv => kv.1 = k) = prs.find? (fun kv => kv.1 = k) := by
  induction prs with
  | nil => rfl
  | cons p rest ih =>
    show (p :: (dedupKeys rest).filter (fun kv2 => kv2.1 ≠ p.1)).find?
        (fun kv => kv.1 = k) = _
    by_cases hp : p.1 = k
    · rw [List.find?_cons_of_pos _ (by simp [hp]),
        List.find?_cons_of_pos _ (by simp [hp])]
    · rw [List.find?_cons_of_neg _ (by simp [hp]),
        List.find?_cons_of_neg _ (by simp [hp])]
      rw [find?_filter_keyne (dedupKeys rest) p.1 k (fun h => hp h.symm), ih]

lemma getParam_dedupKeys (prs : List (String × String)) (k : String) :
    getParam (dedupKeys prs) k = getParam prs k := by
  unfold getParam
  rw [find?_dedupKeys]

lemma parseQuery_append_pair (initData : String) (prs : List (String × String))
    (kenc venc k v : List Char)
    (hparse : parseQuery initData = some prs)
    (hkamp : '&' ∉ kenc) (hvamp : '&' ∉ venc) (hkeq : '=' ∉ kenc)
    (hksemi : ';' ∉ kenc) (hvsemi : ';' ∉ venc)
    (hkune : unescapeQuery kenc = some k) (hvune : unescapeQuery venc = some v) :
    parseQuery (initData ++ String.mk ('&' :: (kenc ++ '=' :: venc))) =
      some (prs ++ [(String.mk k, String.mk v)]) := by
  unfold parseQuery
  have hdata : (initData ++ String.mk ('&' :: (kenc ++ '=' :: venc))).data
      = initData.data ++ '&' :: (kenc ++ '=' :: venc) := by
    rw [String.data_append]
  have hamp : '&' ∉ kenc ++ '=' :: venc := by
    simp only [List.mem_append, List.mem_cons]
    rintro (h | h | h)
    · exact hkamp h
    · cases h
    · exact hvamp h
  rw [hdata, splitAmp_append, splitAmp_no_amp _ hamp, parseQueryPairs_append]
  rw [show parseQueryPairs (splitAmp initData.data) = some prs from hparse]
  rw [parseQueryPairs_single kenc venc k v hksemi hvsemi hkeq hkune hvune]

/--
C9: a later occurrence of an already-present key in the encoded payload is
silently ignored: the parse result, the field map (hence required-field,
timestamp, canonicalization/signing and user-decoding inputs), and the whole
verification result are unchanged, and the field map always carries the value
of the first occurrence of each key.
-/
theorem claim9_first_occurrence_wins (initData token : String) (now : Int)
    (prs : List (String × String)) (kenc venc k v : List Char)
    (hparse : parseQuery initData = some prs)
    (hkamp : '&' ∉ kenc) (hvamp : '&' ∉ venc) (hkeq : '=' ∉ kenc)
    (hksemi : ';' ∉ kenc) (hvsemi : ';' ∉ venc)
    (hkune : unescapeQuery kenc = some k) (hvune : unescapeQuery venc = some v)
    (hdup : String.mk k ∈ prs.map Prod.fst) :
    parseInitData (initData ++ String.mk ('&' :: (kenc ++ '=' :: venc))) =
      parseInitData initData ∧
    VerifyWebAppData (initData ++ String.mk ('&' :: (kenc ++ '=' :: venc))) token now =
      VerifyWebAppData initData token now ∧
    (∀ q : String, getParam (dedupKeys prs) q = getParam prs q) := by
  have hpq := parseQuery_append_pair initData prs kenc venc k v hparse
    hkamp hvamp hkeq hksemi hvsemi hkune hvune
  have hd : dedupKeys (prs ++ [(String.mk k, String.mk v)]) = dedupKeys prs := by
    rw [dedupKeys_append_mem, if_pos hdup]
  have hpi : parseInitData (initData ++ String.mk ('&' :: (kenc ++ '=' :: venc))) =
      parseInitData initData := by
    unfold parseInitData
    rw [hpq, hparse]
    simp [hd]
  refine ⟨hpi, ?_, fun q => getParam_dedupKeys prs q⟩
  unfold VerifyWebAppData
  rw [hpi]

/-- Witness for C9 at a concrete duplicated key. -/
theorem claim9_first_occurrence_wins_witness :
    parseInitData ("a=1&b=2" ++ String.mk ('&' :: (['a'] ++ '=' :: ['9']))) =
      parseInitData "a=1&b=2" ∧
    VerifyWebAppData ("a=1&b=2" ++ String.mk ('&' :: (['a'] ++ '=' :: ['9']))) "t" 0 =
      VerifyWebAppData "a=1&b=2" "t" 0 :=
  ⟨(claim9_first_occurrence_wins "a=1&b=2" "t" 0 [("a", "1"), ("b", "2")]
      ['a'] ['9'] ['a'] ['9'] (by decide) (by decide) (by decide) (by decide)
      (by decide) (by decide) (by decide) (by decide) (by decide)).1,
   (claim9_first_occurrence_wins "a=1&b=2" "t" 0 [("a", "1"), ("b", "2")]
      ['a'] ['9'] ['a'] ['9'] (by decide) (by decide) (by decide) (by decide)
      (by decide) (by decide) (by decide) (by decide) (by decide)).2.1⟩

/-!
### C10: unconditional second percent-decoding pass on `user`
-/

lemma unescapeQuery_plus (cs : List Char) :
    unescapeQuery ('+' :: cs) = (unescapeQuery cs).map (' ' :: ·) := rfl

lemma unescapeQuery_cons_other (c : Char) (cs : List Char) (hc : c ≠ '%') (hp : c ≠ '+') :
    unescapeQuery (c :: cs) = (unescapeQuery cs).map (c :: ·) := by
  rw [unescapeQuery.eq_def]
  split
  · rename_i heq
    cases heq
  · rename_i c1 c2 rest heq
    injection heq with h1 h2
    exact absurd h1 hc
  · rename_i tail hno heq
    injection heq with h1 h2
    exact absurd h1 hc
  · rename_i rest heq
    injection heq with h1 h2
    exact absurd h1 hp
  · rename_i cc rest hno hpct hplus heq
    injection heq with h1 htl
    subst h1
    subst htl
    rfl

lemma unescapeQuery_no_pct (as : List Char) (hp : '%' ∉ as) :
    unescapeQuery as = some (as.map (fun c => if c = '+' then ' ' else c)) := by
  induction as with
  | nil => rfl
  | cons c cs ih =>
    have hc : c ≠ '%' := fun hcc => hp (hcc ▸ List.mem_cons_self c cs)
    have hcs : '%' ∉ cs := fun hm => hp (List.mem_cons_of_mem c hm)
    by_cases hplus : c = '+'
    · subst hplus
      rw [unescapeQuery_plus, ih hcs]
      simp
    · rw [unescapeQuery_cons_other c cs hc hplus, ih hcs]
      simp [hplus]

lemma validateAuthTimestamp_fresh (now : Int) (s : String)
    (hval : parseInt64 s = some 1625097522)
    (hfresh : now - 1625097522 ≤ maxDataAge) :
    validateAuthTimestamp now s = none := by
  unfold validateAuthTimestamp
  rw [hval]
  dsimp only
  rw [if_neg (by unfold maxDataAge at hfresh ⊢; omega)]

/--
C10: the user decoder always applies a second percent-decoding pass to the
already form-decoded `user` value — on unescape failure verification returns
the decode error even after required-field, timestamp and signature checks
passed, every `+` in the singly-decoded value becomes a space before JSON
parsing (shown head-wise, on `%`-free values, and end-to-end: `%2B` in the
payload yields `+` after one pass and a space in the decoded profile), and a
`%` not followed by two hex digits in the singly-decoded value fails
verification with the unescape error.
-/
theorem claim10_user_double_decode (now : Int) (hfresh : now - 1625097522 ≤ maxDataAge) :
    (∀ s : String, queryUnescape s = none →
      decodeUserData s = ({}, some VErr.urlUnescapeFailed)) ∧
    (∀ cs : List Char, unescapeQuery ('+' :: cs) = (unescapeQuery cs).map (' ' :: ·)) ∧
    (∀ as : List Char, '%' ∉ as →
      unescapeQuery as = some (as.map (fun c => if c = '+' then ' ' else c))) ∧
    VerifyWebAppData
        "auth_date=1625097522&user=%7B%22first_name%22%3A%22A%2BB%22%7D&hash=5b5eff2556ccd361cdd38f6d29a538aac4c5971ce36c30b58081dc2c26592253"
        "test_token" now =
      ({ FirstName := "A B" }, none) ∧
    validateDataSignature
        [("auth_date", "1625097522"), ("user", "\x7b\"x\":\"%zz\"\x7d"),
         ("hash", "5089c09a371848aa23e0e95633267914ff28f5f250e0e4df354f8061269a6a8f")]
        "5089c09a371848aa23e0e95633267914ff28f5f250e0e4df354f8061269a6a8f"
        "test_token" = none ∧
    VerifyWebAppData
        "auth_date=1625097522&user=%7B%22x%22%3A%22%25zz%22%7D&hash=5089c09a371848aa23e0e95633267914ff28f5f250e0e4df354f8061269a6a8f"
        "test_token" now =
      ({}, some VErr.urlUnescapeFailed) := by
  have hsig : validateDataSignature
      [("auth_date", "1625097522"), ("user", "\x7b\"x\":\"%zz\"\x7d"),
       ("hash", "5089c09a371848aa23e0e95633267914ff28f5f250e0e4df354f8061269a6a8f")]
      "5089c09a371848aa23e0e95633267914ff28f5f250e0e4df354f8061269a6a8f"
      "test_token" = none := by decide
  refine ⟨?_, fun cs => rfl, unescapeQuery_no_pct, ?_, hsig, ?_⟩
  · intro s h
    unfold decodeUserData
    rw [h]
  · rw [verify_steps _ _ now
        [("auth_date", "1625097522"), ("user", "\x7b\"first_name\":\"A+B\"\x7d"),
         ("hash", "5b5eff2556ccd361cdd38f6d29a538aac4c5971ce36c30b58081dc2c26592253")]
        "5b5eff2556ccd361cdd38f6d29a538aac4c5971ce36c30b58081dc2c26592253"
        (by decide) (by decide) (validateAuthTimestamp_fresh now _ (by decide) hfresh)
        (by decide)]
    decide
  · rw [verify_steps _ _ now
        [("auth_date", "1625097522"), ("user", "\x7b\"x\":\"%zz\"\x7d"),
         ("hash", "5089c09a371848aa23e0e95633267914ff28f5f250e0e4df354f8061269a6a8f")]
        "5089c09a371848aa23e0e95633267914ff28f5f250e0e4df354f8061269a6a8f"
        (by decide) (by decide) (validateAuthTimestamp_fresh now _ (by decide) hfresh)
        hsig]
    decide

/-- Witness for C10 at the clock `now = 1625097522` and concrete decoder inputs. -/
theorem claim10_user_double_decode_witness :
    decodeUserData "%zz" = ({}, some VErr.urlUnescapeFailed) ∧
    unescapeQuery ['a', '+'] = some ['a', ' '] ∧
    VerifyWebAppData
        "auth_date=1625097522&user=%7B%22first_name%22%3A%22A%2BB%22%7D&hash=5b5eff2556ccd361cdd38f6d29a538aac4c5971ce36c30b58081dc2c26592253"
        "test_token" 1625097522 =
      ({ FirstName := "A B" }, none) :=
  ⟨(claim10_user_double_decode 1625097522 (by decide)).1 "%zz" (by decide),
   (claim10_user_double_decode 1625097522 (by decide)).2.2.1 ['a', '+'] (by decide),
   (claim10_user_double_decode 1625097522 (by decide)).2.2.2.1⟩

end Webapps
